import Mathlib

/-!
Verification development for the hardened Python/Polars execution sandbox
(`backend/modules/llm/code_interpreter.py`) and the auto-retry coordinator
(`backend/modules/llm/analyst_agent.py`, `_execute_with_retry`).

Strings are modelled as Lean `String` / `List Char` (Python `str`, where
`len` and slicing count code points).  Python's `str.replace`, `in`, and the
two concrete regular expressions used by the source are implemented directly
over `List Char`.  `ast.parse` (CPython standard library) and actual code
execution are not part of the repository; they enter the model as explicit
oracle parameters: a parser function `String → Except String (List PyStmt)`
and outcome oracles for the subprocess / inline execution paths.
-/

/- ─────────────── Python string primitives ─────────────── -/

/-- Does `needle` occur at the very start of `hay`? (`str.startswith`). -/
def leadsWith : List Char → List Char → Bool
  | [], _ => true
  | _ :: _, [] => false
  | a :: as, b :: bs => a == b && leadsWith as bs

/-- Python substring containment `needle in hay`. -/
def containsSub : List Char → List Char → Bool
  | [], needle => needle.isEmpty
  | c :: rest, needle => leadsWith needle (c :: rest) || containsSub rest needle

/-- Scanner for `str.replace`: `skip` counts characters still to discard
from an occurrence already replaced (so the scan never rescans replaced
text, matching Python's non-overlapping left-to-right semantics). -/
def replAux (old new : List Char) : Nat → List Char → List Char
  | _ + 1, [] => []
  | skip + 1, _ :: rest => replAux old new skip rest
  | 0, [] => []
  | 0, c :: rest =>
    if leadsWith old (c :: rest) && !old.isEmpty then
      new ++ replAux old new (old.length - 1) rest
    else
      c :: replAux old new 0 rest

/-- Python `hay.replace(old, new)`: replaces all non-overlapping occurrences,
scanning left to right.  (The `old = ""` case of Python differs; no rewrite
rule of the source has an empty left-hand side, and the guard keeps the
function total.) -/
def pyReplaceGo (old new hay : List Char) : List Char :=
  replAux old new 0 hay

/-- `\s` of Python regular expressions (ASCII whitespace classes). -/
def isPyWs (c : Char) : Bool :=
  c == ' ' || c == '\t' || c == '\n' || c == '\r' || c == '\x0b' || c == '\x0c'

/-- Python `code.split('\n')`. -/
def splitNl : List Char → List (List Char)
  | [] => [[]]
  | c :: rest =>
    if c = '\n' then [] :: splitNl rest
    else
      match splitNl rest with
      | [] => [[c]]
      | l :: ls => (c :: l) :: ls

/-- Python `'\n'.join(lines)`. -/
def joinNl : List (List Char) → List Char
  | [] => []
  | [l] => l
  | l :: ls => l ++ '\n' :: joinNl ls

/- ─────────────── Security configuration (source constants) ─────────────── -/

/-- `BLOCKED_MODULES` in source order.  (The source uses a `frozenset`, whose
iteration order CPython fixes arbitrarily; the claims below never depend on
which matching module is reported first.) -/
def blockedModulesList : List String :=
  ["os", "sys", "subprocess", "shutil", "pathlib",
   "socket", "http", "requests", "urllib", "urllib3",
   "ctypes", "importlib", "pickle", "shelve",
   "tempfile", "glob", "signal", "threading", "multiprocessing",
   "webbrowser", "ftplib", "smtplib", "telnetlib",
   "xml", "html", "json",
   "sqlite3", "dbm", "zipfile", "tarfile", "gzip", "bz2", "lzma",
   "code", "codeop", "compile", "compileall",
   "inspect", "dis", "gc", "atexit"]

/-- `BLOCKED_BUILTINS` in source order. -/
def blockedBuiltinsList : List String :=
  ["exec", "eval", "compile", "__import__",
   "open", "input", "breakpoint",
   "globals", "locals", "vars", "dir",
   "getattr", "setattr", "delattr", "hasattr",
   "memoryview", "bytearray", "bytes"]

/-- `POLARS_CORRECTIONS`: ordered list of `str.replace` rewrite rules. -/
def polarsCorrections : List (String × String) :=
  [(".groupby(", ".group_by("),
   (".first()", ".head(1)"),
   (".isnull()", ".is_null()"),
   (".notnull()", ".is_not_null()"),
   (".fillna(", ".fill_null("),
   (".dropna(", ".drop_nulls("),
   (".isna()", ".is_null()"),
   (".notna()", ".is_not_null()"),
   (".astype(", ".cast("),
   (".sort_values(", ".sort("),
   (".iterrows()", ".to_dicts()"),
   (".apply(", ".map_elements("),
   (".reset_index()", ""),
   (".reset_index(drop=True)", ""),
   (".nunique()", ".n_unique()"),
   (".to_numpy()", ".to_list()"),
   ("import pandas as pd", "# pandas not available, use polars"),
   ("pd.DataFrame", "pl.DataFrame"),
   ("pd.read_csv", "# pl.read_csv not allowed, use pre-loaded data"),
   (".lazy().collect()", ""),
   (".collect()", ""),
   (".lazy()", "")]

/-- One entry of `STRIPPED_IMPORT_PATTERNS`: the literal after `^\s*`, and
whether the tail is `.*$` (`true`) or `\s*$` (`false`). -/
structure StripPat where
  lit : String
  anyTail : Bool

/-- `STRIPPED_IMPORT_PATTERNS`, decomposed.  Every pattern of the source has
the shape `^\s*LITERAL\s*$` or `^\s*LITERAL.*$`; on a single line (no
newline characters) `.*$` accepts any remainder and `\s*$` requires a
whitespace remainder. -/
def stripPats : List StripPat :=
  [⟨"import polars as pl", false⟩,
   ⟨"import polars", false⟩,
   ⟨"from polars import ", true⟩,
   ⟨"import datetime", true⟩,
   ⟨"from datetime import ", true⟩,
   ⟨"import math", false⟩,
   ⟨"from math import ", true⟩,
   ⟨"import re", false⟩,
   ⟨"from collections import ", true⟩]

/-- `re.match(pattern, line)` for one stripped-import pattern. -/
def stripPatMatch (p : StripPat) (line : List Char) : Bool :=
  let l := line.dropWhile isPyWs
  leadsWith p.lit.data l &&
    (p.anyTail || (l.drop p.lit.data.length).all isPyWs)

/-- Is `line` removed by the stripped-import loop of `_preprocess_code`? -/
def lineStripped (line : List Char) : Bool :=
  stripPats.any (fun p => stripPatMatch p line)

def EXEC_TIMEOUT_SECONDS : Nat := 10

def MAX_OUTPUT_BYTES : Nat := 50 * 1024

/- ─────────────── The `.rename(columns={...})` regex substitution ─────────────── -/

/-- Attempt to match the regex `\.rename\(columns\s*=\s*(\{[^}]+\})\)` at the
head of `l`.  On success returns the text of capture group 1 (braces
included) together with the total number of characters matched.  `[^}]+` is
greedy but bounded by the mandatory closing brace, so it matches exactly the
run of non-brace characters after the opening brace. -/
def tryRenameAt (l : List Char) : Option (List Char × Nat) :=
  let lit := ".rename(columns".data
  if leadsWith lit l then
    let r1 := l.drop lit.length
    let w1 := (r1.takeWhile isPyWs).length
    match r1.drop w1 with
    | '=' :: r3 =>
      let w2 := (r3.takeWhile isPyWs).length
      match r3.drop w2 with
      | '{' :: r5 =>
        let body := r5.takeWhile (fun c => !(c == '}'))
        if body.isEmpty then none
        else
          match r5.drop body.length with
          | '}' :: ')' :: _ =>
            some ('{' :: (body ++ ['}']),
                  lit.length + w1 + 1 + w2 + 1 + body.length + 2)
          | _ => none
      | _ => none
    | _ => none
  else none

/-- Scanner for the rename `re.sub`: `skip` counts characters still to
discard from a region already matched and replaced. -/
def renameAux : Nat → List Char → List Char
  | _ + 1, [] => []
  | skip + 1, _ :: rest => renameAux skip rest
  | 0, [] => []
  | 0, c :: rest =>
    match tryRenameAt (c :: rest) with
    | some (cap, k) =>
      ".rename(".data ++ cap ++ ')' :: renameAux (k - 1) rest
    | none => c :: renameAux 0 rest

/-- `re.sub` of the rename pattern with replacement `.rename(\1)`:
scan left to right, replace each non-overlapping match, continue after the
matched region (`tryRenameAt` matches at least one character). -/
def renameSubGo (l : List Char) : List Char :=
  renameAux 0 l

/- ─────────────── `CodeInterpreter._preprocess_code` ─────────────── -/

/-- The `for old, new in POLARS_CORRECTIONS: code = code.replace(old, new)`
loop of `_preprocess_code`. -/
def applyCorrections (l : List Char) : List Char :=
  polarsCorrections.foldl (fun acc r => pyReplaceGo r.1.data r.2.data acc) l

/-- The stripped-import loop of `_preprocess_code`: split into lines,
drop every line matching a `STRIPPED_IMPORT_PATTERNS` entry, rejoin. -/
def stripLines (l : List Char) : List Char :=
  joinNl ((splitNl l).filter (fun ln => !lineStripped ln))

/-- `_preprocess_code`: the ordered `POLARS_CORRECTIONS` replacements, then
the rename regex substitution, then removal of pre-injected import lines. -/
def preprocessCode (code : String) : String :=
  ⟨stripLines (renameSubGo (applyCorrections code.data))⟩


/- ─────────────── Python AST fragment (`_ASTValidator` inputs) ─────────────── -/

mutual
/-- Expression nodes of the Python AST, restricted to the shapes
`_ASTValidator` distinguishes: `Name`, `Attribute`, `Call`, constants, and a
generic container `other` for any remaining expression kind (the validator
only `generic_visit`s through those, i.e. visits their children). -/
inductive PyExpr where
  | name (id : String)
  | constE
  | attribute (value : PyExpr) (attr : String)
  | call (func : PyExpr) (args : PyExprList)
  | other (children : PyExprList)

/-- Lists of expressions (spelled out so that all recursions below are
structural and kernel-evaluable). -/
inductive PyExprList where
  | nil
  | cons (head : PyExpr) (tail : PyExprList)
end

mutual
/-- Statement nodes: `Import` (alias names, dotted; `visit_Import` reads
only `alias.name`, so `asname` aliases are not represented), `ImportFrom`
(module is `None` for `from . import x`; the imported names are omitted
because `visit_ImportFrom` reads only `node.module` and alias nodes have
no expression children), expression statements, assignments, and a generic
compound statement `block` covering any other node with expression
children and a statement body (loops, `if`, function definitions...),
through which the validator only `generic_visit`s. -/
inductive PyStmt where
  | importS (names : List String)
  | importFrom (mod : Option String)
  | exprS (e : PyExpr)
  | assign (target : PyExpr) (value : PyExpr)
  | block (exprs : PyExprList) (body : PyStmtList)

/-- Lists of statements; a parsed module is a `PyStmtList`. -/
inductive PyStmtList where
  | nil
  | cons (head : PyStmt) (tail : PyStmtList)
end

/-- Python `s.endswith(tail)`. -/
def trailsWith (tail s : List Char) : Bool :=
  leadsWith tail.reverse s.reverse

/-- `attr.startswith("__") and attr.endswith("__")`. -/
def isDunder (a : String) : Bool :=
  leadsWith ("__".data) a.data && trailsWith ("__".data) a.data

/-- `alias.name.split(".")[0]` — the root of a dotted module path. -/
def rootOf (n : String) : String :=
  ⟨n.data.takeWhile (fun c => !(c == '.'))⟩

mutual
/-- Violations collected by `_ASTValidator` on one expression node
(`visit_Call`, `visit_Attribute`, then `generic_visit` into children). -/
def visitExpr : PyExpr → List String
  | .name _ => []
  | .constE => []
  | .attribute v a =>
    (if isDunder a then ["Blocked dunder attribute: ." ++ a] else []) ++ visitExpr v
  | .call f args =>
    (match f with
     | .name id =>
       if blockedBuiltinsList.contains id then
         ["Blocked builtin call: " ++ (id ++ "()")]
       else []
     | .attribute _ a =>
       if isDunder a then ["Blocked dunder access: ." ++ a] else []
     | _ => []) ++ (visitExpr f ++ visitExprList args)
  | .other es => visitExprList es

/-- Violations of a list of expressions, in visit order. -/
def visitExprList : PyExprList → List String
  | .nil => []
  | .cons e es => visitExpr e ++ visitExprList es
end

mutual
/-- Violations collected by `_ASTValidator` on one statement
(`visit_Import`, `visit_ImportFrom`, `generic_visit` into children). -/
def visitStmt : PyStmt → List String
  | .importS names =>
    (names.map (fun n =>
      if blockedModulesList.contains (rootOf n) then
        ["Blocked import: " ++ n]
      else [])).flatten
  | .importFrom mod =>
    match mod with
    | some m =>
      if m.isEmpty then []
      else if blockedModulesList.contains (rootOf m) then
        ["Blocked import from: " ++ m]
      else []
    | none => []
  | .exprS e => visitExpr e
  | .assign t v => visitExpr t ++ visitExpr v
  | .block es body => visitExprList es ++ visitStmtList body

/-- Violations of a whole module body, in visit order. -/
def visitStmtList : PyStmtList → List String
  | .nil => []
  | .cons s ss => visitStmt s ++ visitStmtList ss
end

/-- `_validate_ast`: the parse result of the code (`Except.error` models an
`ast.parse` `SyntaxError`), then the validator walk. -/
def validateAst : Except String PyStmtList → Option String
  | .error e => some ("SyntaxError: " ++ e)
  | .ok tree =>
    let vs := visitStmtList tree
    if vs.isEmpty then none
    else some ("SECURITY VIOLATION:\n" ++
      String.intercalate "\n" (vs.map (fun v => "  - " ++ v)))

/- ─────────────── `CodeInterpreter._check_security` ─────────────── -/

/-- Message of Layer 1, `f"SECURITY: import of '{module}' is blocked."`. -/
def importBlockedMsg (m : String) : String :=
  "SECURITY: import of \x27" ++ (m ++ "\x27 is blocked.")

/-- Message of Layer 2, `f"SECURITY: '{builtin}()' is blocked."`. -/
def builtinBlockedMsg (b : String) : String :=
  "SECURITY: \x27" ++ (b ++ "()\x27 is blocked.")

/-- The Layer-1 loop body over a list of module names. -/
def layer1Go (code : String) : List String → Option String
  | [] => none
  | m :: ms =>
    if containsSub code.data (("import " ++ m).data)
        || containsSub code.data (("from " ++ m).data) then
      some (importBlockedMsg m)
    else layer1Go code ms

/-- Layer 1: textual scan for `f"import {module}"` / `f"from {module}"`
over the blocked-modules denylist, returning the first hit's message. -/
def layer1 (code : String) : Option String :=
  layer1Go code blockedModulesList

/-- The Layer-2 loop body over a list of builtin names. -/
def layer2Go (code : String) : List String → Option String
  | [] => none
  | b :: bs =>
    if containsSub code.data ((b ++ "(").data) then
      some (builtinBlockedMsg b)
    else layer2Go code bs

/-- Layer 2: textual scan for `f"{builtin}("` over the blocked builtins. -/
def layer2 (code : String) : Option String :=
  layer2Go code blockedBuiltinsList

/-- `_check_security`: Layer 1, then Layer 2, then AST validation of the
parse result supplied for the (already preprocessed) code. -/
def checkSecurity (code : String) (parsed : Except String PyStmtList) : Option String :=
  match layer1 code with
  | some e => some e
  | none =>
    match layer2 code with
    | some e => some e
    | none => validateAst parsed

/- ─────────────── Execution model ─────────────── -/

/-- The `{"success": ..., "output": ..., "error": ...}` result dictionary. -/
structure ExecResult where
  success : Bool
  output : String
  error : Option String
deriving DecidableEq, Repr

/-- A dataframe value, as the row records produced by `df.to_dicts()`
(cell values rendered as strings, as `json.dumps(..., default=str)` does). -/
abbrev Row := List (String × String)

abbrev Table := List Row

/-- The caller's object store: dataframes are mutable objects, modelled as
cells of a heap addressed by position.  `df` / `dfs` arguments of `execute`
are addresses into the caller's heap. -/
abbrev Heap := List Table

def heapGet (h : Heap) (a : Nat) : Table := h.getD a []

/-- The locals the `_worker` builds in the child process: value copies
reconstructed from the serialized row records (`"df"` present iff the
caller passed `df`; `"dfs"` present iff the caller passed a non-empty
`dfs`, its entries also spread as individual bindings). -/
structure WorkerLocals where
  df : Option Table
  dfs : Option (List (String × Table))
deriving DecidableEq, Repr

/-- Outcome of `exec(code, ...)` inside `_worker`: the code either runs to
completion with some captured stdout, or raises, with the captured stdout
so far and `traceback.format_exc()`. -/
inductive WorkerOutcome where
  | completes (stdout : String)
  | raises (stdout : String) (tb : String)

/-- `f"\n... [OUTPUT TRUNCATED at {MAX_OUTPUT_BYTES} bytes]"`. -/
def truncMarker : String :=
  "\n... [OUTPUT TRUNCATED at " ++ (toString MAX_OUTPUT_BYTES ++ " bytes]")

/-- The success-path output cap of `_worker`. -/
def capWorkerOutput (out : String) : String :=
  if out.length > MAX_OUTPUT_BYTES then
    ⟨out.data.take MAX_OUTPUT_BYTES⟩ ++ truncMarker
  else out

/-- The dictionary `_worker` puts on the result queue: truncation applies
only on the success path; on an exception the buffer is returned as is. -/
def workerResult : WorkerOutcome → ExecResult
  | .completes out => { success := true, output := capWorkerOutput out, error := none }
  | .raises out tb => { success := false, output := out, error := some tb }

/-- Outcome of `exec` in `_execute_inline`: completion, the `SIGALRM`
`TimeoutError` (caught separately, `error = str(e)`), or another
exception (`error = traceback.format_exc()`). -/
inductive InlineOutcome where
  | completes (stdout : String)
  | timeoutE (stdout : String) (msg : String)
  | raises (stdout : String) (tb : String)

/-- `"\n... [OUTPUT TRUNCATED]"` — the inline path's (shorter) marker. -/
def truncMarkerInline : String := "\n... [OUTPUT TRUNCATED]"

/-- The success-path output cap of `_execute_inline`. -/
def capInlineOutput (out : String) : String :=
  if out.length > MAX_OUTPUT_BYTES then
    ⟨out.data.take MAX_OUTPUT_BYTES⟩ ++ truncMarkerInline
  else out

/-- The result dictionary returned by `_execute_inline`. -/
def inlineResult : InlineOutcome → ExecResult
  | .completes out => { success := true, output := capInlineOutput out, error := none }
  | .timeoutE out m => { success := false, output := out, error := some m }
  | .raises out tb => { success := false, output := out, error := some tb }

/-- Fate of the child process as the parent observes it in
`_execute_in_subprocess`: still alive when `join(timeout)` returns
(forcibly killed), dead with an empty result queue (crash / memory cap),
or dead having queued the worker's result. -/
inductive ProcFate where
  | timedOut
  | crashed
  | ran

/-- `f"Code execution exceeded {EXEC_TIMEOUT_SECONDS}s limit (process killed)"`. -/
def timeoutMsg : String :=
  "Code execution exceeded " ++ (toString EXEC_TIMEOUT_SECONDS ++ "s limit (process killed)")

/-- The crashed / no-result message of `_execute_in_subprocess`. -/
def noResultMsg : String :=
  "Execution produced no result (process crashed or memory limit exceeded)"

/-- Dynamic-behaviour oracle for everything outside the repository's own
code: the child-process fate, the worker's `exec` outcome as a function of
the locals it received, and the inline `exec` outcome as a function of the
injected bindings (caller's addresses!) and the heap, returning the
possibly mutated heap. -/
structure DynBehavior where
  fate : ProcFate
  wexec : WorkerLocals → WorkerOutcome
  iexec : Option Nat → List (String × Nat) → Heap → InlineOutcome × Heap

/-- Serialization boundary of `_execute_in_subprocess` + `_worker`:
`df.to_dicts()` → `json.dumps` → `json.loads` → `pl.DataFrame(...)` hands
the child value copies of the caller's tables, never the objects. -/
def childLocals (heap : Heap) (df : Option Nat) (dfs : List (String × Nat)) : WorkerLocals :=
  { df := df.map (heapGet heap),
    dfs := if dfs.isEmpty then none
           else some (dfs.map (fun p => (p.1, heapGet heap p.2))) }

/-- `_execute_in_subprocess` (after the security gate): kill-on-timeout,
empty-queue, or the queued worker result. -/
def executeInSubprocess (df : Option Nat) (dfs : List (String × Nat))
    (dyn : DynBehavior) (heap : Heap) : ExecResult :=
  match dyn.fate with
  | .timedOut => { success := false, output := "", error := some timeoutMsg }
  | .crashed => { success := false, output := "", error := some noResultMsg }
  | .ran => workerResult (dyn.wexec (childLocals heap df dfs))

/-- `_execute_inline`: the executed code receives the caller's own
dataframe objects (their addresses), and its mutations of the heap are the
caller's heap after the call. -/
def executeInline (df : Option Nat) (dfs : List (String × Nat))
    (dyn : DynBehavior) (heap : Heap) : ExecResult × Heap :=
  (inlineResult (dyn.iexec df dfs heap).1, (dyn.iexec df dfs heap).2)

/-- `CodeInterpreter.execute`: preprocess, security gate (string scan on
the preprocessed code + AST validation of its parse), then the subprocess
or inline path.  Returns the result together with the caller's heap after
the call. -/
def execute (code : String) (P : String → Except String PyStmtList)
    (df : Option Nat) (dfs : List (String × Nat)) (useSubprocess : Bool)
    (dyn : DynBehavior) (heap : Heap) : ExecResult × Heap :=
  let pre := preprocessCode code
  match checkSecurity pre (P pre) with
  | some err => ({ success := false, output := "", error := some err }, heap)
  | none =>
    if useSubprocess then (executeInSubprocess df dfs dyn heap, heap)
    else executeInline df dfs dyn heap

/- ─────────────── `AnalystAgent._execute_with_retry` ─────────────── -/

/-- The retry code the coordinator extracts from the LLM's reply:
`none` models a `json.JSONDecodeError`, `some none` a parsed reply without
a usable `python_code` field, `some (some c)` a reply carrying `c`
(Python's truthiness makes an empty string unusable too). -/
def retryCodeTruthy : Option (Option String) → Option String
  | some (some c) => if c.isEmpty then none else some c
  | _ => none

/-- `_execute_with_retry`, with the first execution's result, the parsed
LLM reply, and the second execution as oracles.  Returns the final result,
the final code, and whether a second execution attempt was made. -/
def executeWithRetry (pythonCode : String) (exec1 : ExecResult)
    (retryParse : Option (Option String)) (exec2 : String → ExecResult) :
    ExecResult × String × Bool :=
  if exec1.success then (exec1, pythonCode, false)
  else
    match retryCodeTruthy retryParse with
    | some c => (exec2 c, c, true)
    | none => (exec1, pythonCode, false)

/- ─────────────── Decidable shape predicates on trees ─────────────── -/

mutual
/-- Does the expression contain an attribute access (or call through one)
whose attribute name both starts and ends with a double underscore? -/
def exprHasDunder : PyExpr → Bool
  | .name _ => false
  | .constE => false
  | .attribute v a => isDunder a || exprHasDunder v
  | .call f args => exprHasDunder f || exprListHasDunder args
  | .other es => exprListHasDunder es

def exprListHasDunder : PyExprList → Bool
  | .nil => false
  | .cons e es => exprHasDunder e || exprListHasDunder es
end

mutual
/-- Does the statement contain a dunder attribute access anywhere? -/
def stmtHasDunder : PyStmt → Bool
  | .importS _ => false
  | .importFrom _ => false
  | .exprS e => exprHasDunder e
  | .assign t v => exprHasDunder t || exprHasDunder v
  | .block es body => exprListHasDunder es || stmtListHasDunder body

def stmtListHasDunder : PyStmtList → Bool
  | .nil => false
  | .cons s ss => stmtHasDunder s || stmtListHasDunder ss
end

mutual
/-- Does the statement contain an `import` whose root module is in the
denylist, or a `from`-import whose (non-empty) module has a denied root? -/
def stmtHasBlockedImport : PyStmt → Bool
  | .importS names => names.any (fun n => blockedModulesList.contains (rootOf n))
  | .importFrom mod =>
    match mod with
    | some m => !m.isEmpty && blockedModulesList.contains (rootOf m)
    | none => false
  | .exprS _ => false
  | .assign _ _ => false
  | .block _ body => stmtListHasBlockedImport body

def stmtListHasBlockedImport : PyStmtList → Bool
  | .nil => false
  | .cons s ss => stmtHasBlockedImport s || stmtListHasBlockedImport ss
end

/-- Does the rename regex match anywhere in the text? -/
def hasRenameHit : List Char → Bool
  | [] => false
  | c :: rest => (tryRenameAt (c :: rest)).isSome || hasRenameHit rest

/-- No rewrite rule of `_preprocess_code` applies to `code`: no
`POLARS_CORRECTIONS` left-hand side occurs, the rename regex has no match,
and no line matches a stripped-import pattern. -/
def preprocessNoMatch (code : String) : Bool :=
  polarsCorrections.all (fun r => !containsSub code.data r.1.data) &&
  !hasRenameHit code.data &&
  (splitNl code.data).all (fun ln => !lineStripped ln)

/-- Does the string start with `"SECURITY"`? (All messages produced by the
security gate — both string-scan layers and the AST validator — do;
`SyntaxError` messages do not.) -/
def hasSecHead (s : String) : Bool :=
  leadsWith ("SECURITY".data) s.data

/- ─────────────── Concrete gadgets for witnesses and counterexamples ─────────────── -/

/-- Convert a Lean list of expressions into a `PyExprList`. -/
def exprs : List PyExpr → PyExprList
  | [] => .nil
  | e :: es => .cons e (exprs es)

/-- Convert a Lean list of statements into a `PyStmtList`. -/
def stmts : List PyStmt → PyStmtList
  | [] => .nil
  | s :: ss => .cons s (stmts ss)

/-- A parse oracle defined at one source string (the only string it is
applied to in the theorems that use it); elsewhere it is unspecified. -/
def parserFor (src : String) (t : PyStmtList) : String → Except String PyStmtList :=
  fun s => if s == src then .ok t else .error ("oracle undefined")

/-- Dynamic behaviour of a run whose executed code completes silently
(e.g. the empty program): no timeout, no crash, empty stdout, no mutation. -/
def benignDyn : DynBehavior :=
  { fate := .ran,
    wexec := fun _ => .completes "",
    iexec := fun _ _ h => (.completes "", h) }

/-- Dynamic behaviour of a run whose child process is still alive when the
parent's `join(timeout)` returns. -/
def dynTimeout : DynBehavior :=
  { fate := .timedOut,
    wexec := fun _ => .completes "",
    iexec := fun _ _ h => (.completes "", h) }

/-- Dynamic behaviour of a run whose child dies without queueing a result. -/
def dynCrashed : DynBehavior :=
  { fate := .crashed,
    wexec := fun _ => .completes "",
    iexec := fun _ _ h => (.completes "", h) }

/-- `ast.parse("x = 1")`. -/
def treeXEq1 : PyStmtList := stmts [.assign (.name "x") .constE]

def pXEq1 : String → Except String PyStmtList := parserFor ("x = 1") treeXEq1

/-- `ast.parse("import os")`. -/
def treeImportOs : PyStmtList := stmts [.importS ["os"]]

/-- `ast.parse("from os import x")` (imported names omitted, see `PyStmt`). -/
def treeFromOs : PyStmtList := stmts [.importFrom (some "os")]

/-- Parse oracle for the two claim-C1 witness inputs. -/
def pC1W : String → Except String PyStmtList :=
  fun s =>
    if s == "import os" then .ok treeImportOs
    else if s == "from os import x" then .ok treeFromOs
    else .error ("oracle undefined")

/-- `ast.parse("x.__class__.__subclasses__()")`. -/
def treeC2 : PyStmtList :=
  stmts [.exprS (.call
    (.attribute (.attribute (.name "x") "__class__") "__subclasses__")
    (exprs []))]

def pC2W : String → Except String PyStmtList :=
  parserFor ("x.__class__.__subclasses__()") treeC2

/-- Parse oracle for the empty module (`ast.parse("")` has an empty body),
used where the rewriter has stripped the whole input. -/
def pEmptyMod : String → Except String PyStmtList := parserFor ("") PyStmtList.nil

/-- `ast.parse("import datetime; x.__class__")` — the original (pre-rewrite)
source of the claim-C2 counterexample: it parses and contains a dunder
attribute access. -/
def treeC2Orig : PyStmtList :=
  stmts [.importS ["datetime"], .exprS (.attribute (.name "x") "__class__")]

/-- Executed code of the claim-C3 counterexample: prints 60000 characters
plus a newline, then raises `ZeroDivisionError`. -/
def c3code : String := "print(\x27a\x27 * 60000)\n1 / 0"

/-- `ast.parse` of `c3code` (`'a' * 60000` and `1 / 0` are `BinOp` nodes,
represented generically). -/
def treeC3 : PyStmtList :=
  stmts [.exprS (.call (.name "print") (exprs [.other (exprs [.constE, .constE])])),
         .exprS (.other (exprs [.constE, .constE]))]

def pC3 : String → Except String PyStmtList := parserFor c3code treeC3

/-- The stdout captured while running `c3code`: 60000 `a`s and a newline. -/
def bigStdout : String := ⟨List.replicate 60000 'a' ++ ['\n']⟩

/-- The traceback `c3code` produces. -/
def c3tb : String :=
  "Traceback (most recent call last):\n  File \"<string>\", line 2, in <module>\nZeroDivisionError: division by zero\n"

/-- Dynamic behaviour of running `c3code`: the child's `exec` raises after
printing more than the output cap. -/
def dynC3 : DynBehavior :=
  { fate := .ran,
    wexec := fun _ => .raises bigStdout c3tb,
    iexec := fun _ _ h => (.raises bigStdout c3tb, h) }

/-- A 51201-character output, one over the cap (claim-C3 witness). -/
def overCapOut : String := ⟨List.replicate 51201 'a'⟩

/-- The caller's table in the claim-C9 demonstration. -/
def tbl9 : Table := [[("a", "1")]]

/-- `ast.parse("df.extend(df)")` — `DataFrame.extend` mutates in place. -/
def treeC9 : PyStmtList :=
  stmts [.exprS (.call (.attribute (.name "df") "extend") (exprs [.name "df"]))]

def pC9 : String → Except String PyStmtList := parserFor ("df.extend(df)") treeC9

/-- Dynamic behaviour of running `df.extend(df)` inline: the executed code
writes through the caller's `df` address, doubling the table. -/
def dynMut : DynBehavior :=
  { fate := .ran,
    wexec := fun _ => .completes "",
    iexec := fun d _ h =>
      (.completes "", h.set (d.getD 0) (heapGet h (d.getD 0) ++ heapGet h (d.getD 0))) }

/-- Claim-C10 witness input: the blocked sequence `import os` occurs only
inside a string literal, yet Layer 1 rejects it. -/
def strLitCode : String := "x = \x27import os\x27"

/-- `ast.parse` of `strLitCode`: an assignment of a string constant. -/
def treeStrLit : PyStmtList := stmts [.assign (.name "x") .constE]

def pStrLit : String → Except String PyStmtList := parserFor strLitCode treeStrLit

/- ─────────────── Helper lemmas ─────────────── -/

theorem leadsWith_append : ∀ (p a b : List Char),
    leadsWith p a = true → leadsWith p (a ++ b) = true
  | [], _, _, _ => rfl
  | _ :: _, [], _, h => by simp [leadsWith] at h
  | c :: cs, d :: as, b, h => by
    simp only [leadsWith, Bool.and_eq_true] at h
    simp only [List.cons_append, leadsWith, Bool.and_eq_true]
    exact ⟨h.1, leadsWith_append cs as b h.2⟩

theorem hasSecHead_append (s t : String) (h : hasSecHead s = true) :
    hasSecHead (s ++ t) = true := by
  unfold hasSecHead at h ⊢
  rw [String.data_append]
  exact leadsWith_append _ _ _ h

theorem layer1Go_isSome_of_mem (code : String) :
    ∀ (l : List String) (m : String), m ∈ l →
      (containsSub code.data (("import " ++ m).data)
        || containsSub code.data (("from " ++ m).data)) = true →
      ∃ e, layer1Go code l = some e := by
  intro l
  induction l with
  | nil => intro m hm _; exact absurd hm (List.not_mem_nil m)
  | cons m' ms ih =>
    intro m hm hc
    by_cases hcond : (containsSub code.data (("import " ++ m').data)
        || containsSub code.data (("from " ++ m').data)) = true
    · exact ⟨importBlockedMsg m', by simp only [layer1Go, if_pos hcond]⟩
    · rcases List.mem_cons.mp hm with h1 | h2
      · subst h1; exact absurd hc hcond
      · rcases ih m h2 hc with ⟨e, he⟩
        exact ⟨e, by simp only [layer1Go, if_neg hcond]; exact he⟩

theorem layer1Go_secHead (code : String) :
    ∀ (l : List String) (e : String),
      layer1Go code l = some e → hasSecHead e = true := by
  intro l
  induction l with
  | nil => intro e he; simp [layer1Go] at he
  | cons m' ms ih =>
    intro e he
    by_cases hcond : (containsSub code.data (("import " ++ m').data)
        || containsSub code.data (("from " ++ m').data)) = true
    · simp only [layer1Go, if_pos hcond, Option.some.injEq] at he
      rw [← he]
      unfold importBlockedMsg
      exact hasSecHead_append _ _ (by decide)
    · simp only [layer1Go, if_neg hcond] at he
      exact ih e he

theorem layer2Go_isSome_of_mem (code : String) :
    ∀ (l : List String) (b : String), b ∈ l →
      containsSub code.data ((b ++ "(").data) = true →
      ∃ e, layer2Go code l = some e := by
  intro l
  induction l with
  | nil => intro b hb _; exact absurd hb (List.not_mem_nil b)
  | cons b' bs ih =>
    intro b hb hc
    by_cases hcond : containsSub code.data ((b' ++ "(").data) = true
    · exact ⟨builtinBlockedMsg b', by simp only [layer2Go, if_pos hcond]⟩
    · rcases List.mem_cons.mp hb with h1 | h2
      · subst h1; exact absurd hc hcond
      · rcases ih b h2 hc with ⟨e, he⟩
        exact ⟨e, by simp only [layer2Go, if_neg hcond]; exact he⟩

theorem layer2Go_secHead (code : String) :
    ∀ (l : List String) (e : String),
      layer2Go code l = some e → hasSecHead e = true := by
  intro l
  induction l with
  | nil => intro e he; simp [layer2Go] at he
  | cons b' bs ih =>
    intro e he
    by_cases hcond : containsSub code.data ((b' ++ "(").data) = true
    · simp only [layer2Go, if_pos hcond, Option.some.injEq] at he
      rw [← he]
      unfold builtinBlockedMsg
      exact hasSecHead_append _ _ (by decide)
    · simp only [layer2Go, if_neg hcond] at he
      exact ih e he

theorem validateAst_violations (tree : PyStmtList) (hv : visitStmtList tree ≠ []) :
    ∃ e, validateAst (Except.ok tree) = some e ∧ hasSecHead e = true := by
  have hne : (visitStmtList tree).isEmpty = false := by
    cases h : visitStmtList tree with
    | nil => exact absurd h hv
    | cons a as => rfl
  refine ⟨"SECURITY VIOLATION:\n" ++
    String.intercalate "\n" ((visitStmtList tree).map (fun v => "  - " ++ v)),
    by simp [validateAst, hne], hasSecHead_append _ _ (by decide)⟩

theorem checkSecurity_fails_of_violations (code : String) (tree : PyStmtList)
    (hv : visitStmtList tree ≠ []) :
    ∃ e, checkSecurity code (Except.ok tree) = some e ∧ hasSecHead e = true := by
  cases h1 : layer1 code with
  | some e => exact ⟨e, by simp [checkSecurity, h1], layer1Go_secHead code _ e h1⟩
  | none =>
    cases h2 : layer2 code with
    | some e => exact ⟨e, by simp [checkSecurity, h1, h2], layer2Go_secHead code _ e h2⟩
    | none =>
      rcases validateAst_violations tree hv with ⟨e, he, hs⟩
      exact ⟨e, by simp [checkSecurity, h1, h2, he], hs⟩

theorem execute_sec_some {code : String} {P : String → Except String PyStmtList}
    {df : Option Nat} {dfs : List (String × Nat)} {us : Bool} {dyn : DynBehavior}
    {heap : Heap} {e : String}
    (h : checkSecurity (preprocessCode code) (P (preprocessCode code)) = some e) :
    execute code P df dfs us dyn heap
      = ({ success := false, output := "", error := some e }, heap) := by
  simp [execute, h]

theorem execute_sec_none_sub {code : String} {P : String → Except String PyStmtList}
    {df : Option Nat} {dfs : List (String × Nat)} {dyn : DynBehavior} {heap : Heap}
    (h : checkSecurity (preprocessCode code) (P (preprocessCode code)) = none) :
    execute code P df dfs true dyn heap = (executeInSubprocess df dfs dyn heap, heap) := by
  simp [execute, h]

theorem execute_sec_none_inline {code : String} {P : String → Except String PyStmtList}
    {df : Option Nat} {dfs : List (String × Nat)} {dyn : DynBehavior} {heap : Heap}
    (h : checkSecurity (preprocessCode code) (P (preprocessCode code)) = none) :
    execute code P df dfs false dyn heap = executeInline df dfs dyn heap := by
  simp [execute, h]

theorem ne_nil_left {α : Type} (a b : List α) (h : a ≠ []) : a ++ b ≠ [] := by
  intro hc; exact h (List.append_eq_nil.mp hc).1

theorem ne_nil_right {α : Type} (a b : List α) (h : b ≠ []) : a ++ b ≠ [] := by
  intro hc; exact h (List.append_eq_nil.mp hc).2

mutual
theorem visitExpr_ne_nil_of_dunder : ∀ (e : PyExpr),
    exprHasDunder e = true → visitExpr e ≠ []
  | .name _, h => by simp [exprHasDunder] at h
  | .constE, h => by simp [exprHasDunder] at h
  | .attribute v a, h => by
    simp only [exprHasDunder, Bool.or_eq_true] at h
    simp only [visitExpr]
    rcases h with h1 | h2
    · rw [if_pos h1]; simp
    · exact ne_nil_right _ _ (visitExpr_ne_nil_of_dunder v h2)
  | .call f args, h => by
    simp only [exprHasDunder, Bool.or_eq_true] at h
    simp only [visitExpr]
    apply ne_nil_right
    rcases h with h1 | h2
    · exact ne_nil_left _ _ (visitExpr_ne_nil_of_dunder f h1)
    · exact ne_nil_right _ _ (visitExprList_ne_nil_of_dunder args h2)
  | .other es, h => by
    simp only [exprHasDunder] at h
    simp only [visitExpr]
    exact visitExprList_ne_nil_of_dunder es h

theorem visitExprList_ne_nil_of_dunder : ∀ (es : PyExprList),
    exprListHasDunder es = true → visitExprList es ≠ []
  | .nil, h => by simp [exprListHasDunder] at h
  | .cons e es, h => by
    simp only [exprListHasDunder, Bool.or_eq_true] at h
    simp only [visitExprList]
    rcases h with h1 | h2
    · exact ne_nil_left _ _ (visitExpr_ne_nil_of_dunder e h1)
    · exact ne_nil_right _ _ (visitExprList_ne_nil_of_dunder es h2)
end

theorem importViol_ne_nil :
    ∀ (names : List String),
      names.any (fun n => blockedModulesList.contains (rootOf n)) = true →
      (names.map (fun n =>
        if blockedModulesList.contains (rootOf n) then
          (["Blocked import: " ++ n]) else [])).flatten ≠ [] := by
  intro names
  induction names with
  | nil => intro h; simp at h
  | cons n ns ih =>
    intro h
    simp only [List.any_cons, Bool.or_eq_true] at h
    by_cases hn : blockedModulesList.contains (rootOf n) = true
    · simp only [List.map_cons, List.flatten_cons, if_pos hn]
      simp
    · rcases h with h1 | h2
      · exact absurd h1 hn
      · simp only [List.map_cons, List.flatten_cons, if_neg hn, List.nil_append]
        exact ih h2

mutual
theorem visitStmt_ne_nil_of_blocked : ∀ (s : PyStmt),
    stmtHasBlockedImport s = true → visitStmt s ≠ []
  | .importS names, h => by
    simp only [stmtHasBlockedImport] at h
    simp only [visitStmt]
    exact importViol_ne_nil names h
  | .importFrom none, h => by simp [stmtHasBlockedImport] at h
  | .importFrom (some m), h => by
    simp only [stmtHasBlockedImport, Bool.and_eq_true, Bool.not_eq_true'] at h
    simp only [visitStmt, h.1, Bool.false_eq_true, if_false, if_pos h.2]
    simp
  | .exprS _, h => by simp [stmtHasBlockedImport] at h
  | .assign _ _, h => by simp [stmtHasBlockedImport] at h
  | .block es body, h => by
    simp only [stmtHasBlockedImport] at h
    simp only [visitStmt]
    exact ne_nil_right _ _ (visitStmtList_ne_nil_of_blocked body h)

theorem visitStmtList_ne_nil_of_blocked : ∀ (ss : PyStmtList),
    stmtListHasBlockedImport ss = true → visitStmtList ss ≠ []
  | .nil, h => by simp [stmtListHasBlockedImport] at h
  | .cons s ss, h => by
    simp only [stmtListHasBlockedImport, Bool.or_eq_true] at h
    simp only [visitStmtList]
    rcases h with h1 | h2
    · exact ne_nil_left _ _ (visitStmt_ne_nil_of_blocked s h1)
    · exact ne_nil_right _ _ (visitStmtList_ne_nil_of_blocked ss h2)
end

mutual
theorem visitStmt_ne_nil_of_dunder : ∀ (s : PyStmt),
    stmtHasDunder s = true → visitStmt s ≠ []
  | .importS _, h => by simp [stmtHasDunder] at h
  | .importFrom _, h => by simp [stmtHasDunder] at h
  | .exprS e, h => by
    simp only [stmtHasDunder] at h
    simp only [visitStmt]
    exact visitExpr_ne_nil_of_dunder e h
  | .assign t v, h => by
    simp only [stmtHasDunder, Bool.or_eq_true] at h
    simp only [visitStmt]
    rcases h with h1 | h2
    · exact ne_nil_left _ _ (visitExpr_ne_nil_of_dunder t h1)
    · exact ne_nil_right _ _ (visitExpr_ne_nil_of_dunder v h2)
  | .block es body, h => by
    simp only [stmtHasDunder, Bool.or_eq_true] at h
    simp only [visitStmt]
    rcases h with h1 | h2
    · exact ne_nil_left _ _ (visitExprList_ne_nil_of_dunder es h1)
    · exact ne_nil_right _ _ (visitStmtList_ne_nil_of_dunder body h2)

theorem visitStmtList_ne_nil_of_dunder : ∀ (ss : PyStmtList),
    stmtListHasDunder ss = true → visitStmtList ss ≠ []
  | .nil, h => by simp [stmtListHasDunder] at h
  | .cons s ss, h => by
    simp only [stmtListHasDunder, Bool.or_eq_true] at h
    simp only [visitStmtList]
    rcases h with h1 | h2
    · exact ne_nil_left _ _ (visitStmt_ne_nil_of_dunder s h1)
    · exact ne_nil_right _ _ (visitStmtList_ne_nil_of_dunder ss h2)
end

theorem replAux_id_of_not_contains (old new : List Char) :
    ∀ (hay : List Char), containsSub hay old = false → replAux old new 0 hay = hay := by
  intro hay
  induction hay with
  | nil => intro _; rfl
  | cons c rest ih =>
    intro h
    rw [containsSub, Bool.or_eq_false_iff] at h
    simp [replAux, h.1, ih h.2]

theorem foldlRules_id :
    ∀ (rs : List (String × String)) (l : List Char),
      (∀ r ∈ rs, containsSub l r.1.data = false) →
      rs.foldl (fun acc r => pyReplaceGo r.1.data r.2.data acc) l = l := by
  intro rs
  induction rs with
  | nil => intro l _; rfl
  | cons r rs' ih =>
    intro l h
    simp only [List.foldl_cons]
    rw [show pyReplaceGo r.1.data r.2.data l = l from
      replAux_id_of_not_contains _ _ l (h r (List.mem_cons_self r rs'))]
    exact ih l (fun r' hr' => h r' (List.mem_cons_of_mem r hr'))

theorem renameAux_id_of_no_hit :
    ∀ (l : List Char), hasRenameHit l = false → renameAux 0 l = l := by
  intro l
  induction l with
  | nil => intro _; rfl
  | cons c rest ih =>
    intro h
    rw [hasRenameHit, Bool.or_eq_false_iff] at h
    have hnone : tryRenameAt (c :: rest) = none := by
      cases ht : tryRenameAt (c :: rest) with
      | none => rfl
      | some v => rw [ht] at h; exact absurd h.1 (by simp)
    simp only [renameAux, hnone]
    rw [ih h.2]

theorem splitNl_ne_nil : ∀ (l : List Char), splitNl l ≠ [] := by
  intro l
  induction l with
  | nil => simp [splitNl]
  | cons c rest ih =>
    simp only [splitNl]
    by_cases hc : c = '\n'
    · rw [if_pos hc]; simp
    · rw [if_neg hc]
      cases hs : splitNl rest with
      | nil => exact absurd hs ih
      | cons a as => simp

theorem joinNl_cons (a : List Char) (s : List (List Char)) (h : s ≠ []) :
    joinNl (a :: s) = a ++ '\n' :: joinNl s := by
  cases s with
  | nil => exact absurd rfl h
  | cons b bs => rfl

theorem joinNl_splitNl : ∀ (l : List Char), joinNl (splitNl l) = l := by
  intro l
  induction l with
  | nil => rfl
  | cons c rest ih =>
    simp only [splitNl]
    by_cases hc : c = '\n'
    · rw [if_pos hc, joinNl_cons _ _ (splitNl_ne_nil rest), ih, hc]
      rfl
    · rw [if_neg hc]
      cases hs : splitNl rest with
      | nil => exact absurd hs (splitNl_ne_nil rest)
      | cons a as =>
        rw [hs] at ih
        show joinNl ((c :: a) :: as) = c :: rest
        cases as with
        | nil =>
          show c :: a = c :: rest
          rw [show a = rest from ih]
        | cons b bs =>
          rw [joinNl_cons _ _ (by simp), ← ih,
            joinNl_cons _ _ (by simp : (b :: bs : List (List Char)) ≠ [])]
          simp [List.cons_append]

theorem preprocess_id_of_no_match (code : String) (h : preprocessNoMatch code = true) :
    preprocessCode code = code := by
  unfold preprocessNoMatch at h
  simp only [Bool.and_eq_true] at h
  obtain ⟨⟨h1, h2⟩, h3⟩ := h
  have e1 : applyCorrections code.data = code.data := by
    apply foldlRules_id
    intro r hr
    have := List.all_eq_true.mp h1 r hr
    rwa [Bool.not_eq_true'] at this
  have hrn : hasRenameHit code.data = false := by
    cases hrh : hasRenameHit code.data
    · rfl
    · rw [hrh] at h2; exact absurd h2 (by decide)
  have e2 : renameSubGo code.data = code.data := renameAux_id_of_no_hit _ hrn
  have e3 : (splitNl code.data).filter (fun ln => !lineStripped ln) = splitNl code.data :=
    List.filter_eq_self.mpr (List.all_eq_true.mp h3)
  unfold preprocessCode stripLines
  rw [e1, e2, e3, joinNl_splitNl]

/- ─────────────── Claim theorems ─────────────── -/

theorem c1ScanFact : blockedModulesList.all (fun m =>
    containsSub (preprocessCode ("import " ++ m)).data (("import " ++ m).data) &&
    containsSub (preprocessCode ("from " ++ m ++ " import x")).data (("from " ++ m).data))
    = true := by decide

/-- Claim C1: for every module name m in the blocked-modules denylist,
`execute("import m", ...)` and `execute("from m import x", ...)` return
`success = false` with a policy-violation (`SECURITY`-headed) error, for any
parser oracle, data, mode and dynamic behaviour; and, covering every other
supported import syntax variant (aliasing, dotted submodule paths, extra
whitespace), any input whose preprocessed form parses to a tree containing
an import with a denied root module is likewise rejected. -/
theorem c1_denylist_imports_rejected :
    (∀ m, m ∈ blockedModulesList →
      ∀ (P : String → Except String PyStmtList) df dfs us dyn heap,
        ((execute ("import " ++ m) P df dfs us dyn heap).1.success = false ∧
          ∃ e, (execute ("import " ++ m) P df dfs us dyn heap).1.error = some e ∧
            hasSecHead e = true) ∧
        ((execute ("from " ++ m ++ " import x") P df dfs us dyn heap).1.success = false ∧
          ∃ e, (execute ("from " ++ m ++ " import x") P df dfs us dyn heap).1.error = some e ∧
            hasSecHead e = true)) ∧
    (∀ (code : String) (P : String → Except String PyStmtList) tree df dfs us dyn heap,
      P (preprocessCode code) = Except.ok tree →
      stmtListHasBlockedImport tree = true →
      (execute code P df dfs us dyn heap).1.success = false ∧
        ∃ e, (execute code P df dfs us dyn heap).1.error = some e ∧ hasSecHead e = true) := by
  constructor
  · intro m hm P df dfs us dyn heap
    have hf := List.all_eq_true.mp c1ScanFact m hm
    rw [Bool.and_eq_true] at hf
    constructor
    · rcases layer1Go_isSome_of_mem (preprocessCode ("import " ++ m))
          blockedModulesList m hm (by rw [hf.1, Bool.true_or]) with ⟨e, he⟩
      have hcs : checkSecurity (preprocessCode ("import " ++ m))
          (P (preprocessCode ("import " ++ m))) = some e := by
        simp only [checkSecurity, layer1, he]
      rw [execute_sec_some hcs]
      exact ⟨rfl, e, rfl, layer1Go_secHead _ _ e he⟩
    · rcases layer1Go_isSome_of_mem (preprocessCode ("from " ++ m ++ " import x"))
          blockedModulesList m hm (by rw [hf.2, Bool.or_true]) with ⟨e, he⟩
      have hcs : checkSecurity (preprocessCode ("from " ++ m ++ " import x"))
          (P (preprocessCode ("from " ++ m ++ " import x"))) = some e := by
        simp only [checkSecurity, layer1, he]
      rw [execute_sec_some hcs]
      exact ⟨rfl, e, rfl, layer1Go_secHead _ _ e he⟩
  · intro code P tree df dfs us dyn heap hP hB
    have hv : visitStmtList tree ≠ [] := visitStmtList_ne_nil_of_blocked tree hB
    rcases checkSecurity_fails_of_violations (preprocessCode code) tree hv with ⟨e, he, hs⟩
    have hcs : checkSecurity (preprocessCode code) (P (preprocessCode code)) = some e := by
      rw [hP]; exact he
    rw [execute_sec_some hcs]
    exact ⟨rfl, e, rfl, hs⟩

/-- Witness for claim C1, instantiated at the module `"os"`, an honest
parse oracle, and a benign run. -/
theorem c1_denylist_imports_rejected_witness :
    ("os" ∈ blockedModulesList) ∧
    (execute ("import os") pC1W none [] true benignDyn []).1.success = false ∧
    (execute ("from os import x") pC1W none [] true benignDyn []).1.success = false := by
  refine ⟨by decide, ?_, ?_⟩
  · exact ((c1_denylist_imports_rejected.1 "os" (by decide) pC1W none [] true benignDyn []).1).1
  · exact ((c1_denylist_imports_rejected.1 "os" (by decide) pC1W none [] true benignDyn []).2).1

/-- Claim C2 (amended): for every code string whose preprocessed (rewritten)
form parses to a tree containing an attribute access — or attribute call —
whose attribute name has both leading and trailing double underscores,
`execute` returns `success = false`; in particular this covers
`execute("x.__class__.__subclasses__()", ...)` (see the witness).  The
restriction to the preprocessed form is forced by `c2_counterexample`:
the Source Rewriter can strip a line carrying the dunder access before the
security gate runs. -/
theorem c2_dunder_rejected :
    ∀ (code : String) (P : String → Except String PyStmtList) tree df dfs us dyn heap,
      P (preprocessCode code) = Except.ok tree →
      stmtListHasDunder tree = true →
      (execute code P df dfs us dyn heap).1.success = false ∧
        ∃ e, (execute code P df dfs us dyn heap).1.error = some e ∧ hasSecHead e = true := by
  intro code P tree df dfs us dyn heap hP hD
  have hv := visitStmtList_ne_nil_of_dunder tree hD
  rcases checkSecurity_fails_of_violations (preprocessCode code) tree hv with ⟨e, he, hs⟩
  have hcs : checkSecurity (preprocessCode code) (P (preprocessCode code)) = some e := by
    rw [hP]; exact he
  rw [execute_sec_some hcs]
  exact ⟨rfl, e, rfl, hs⟩

/-- Witness for claim C2 at the spec's own example
`x.__class__.__subclasses__()` (the rewriter leaves it unchanged, its parse
tree contains dunder attribute accesses, and `execute` rejects it). -/
theorem c2_dunder_rejected_witness :
    pC2W (preprocessCode ("x.__class__.__subclasses__()")) = Except.ok treeC2 ∧
    stmtListHasDunder treeC2 = true ∧
    (execute ("x.__class__.__subclasses__()") pC2W none [] true benignDyn []).1.success
      = false :=
  ⟨rfl, by decide,
    (c2_dunder_rejected ("x.__class__.__subclasses__()") pC2W treeC2 none [] true benignDyn []
      rfl (by decide)).1⟩

/-- Counterexample to claim C2 as stated: the input
`"import datetime; x.__class__"` parses (its CPython AST is `treeC2Orig`)
and contains a dunder attribute access, yet `execute` returns
`success = true`: `_preprocess_code` strips the whole line (it matches the
stripped-import pattern `^\s*import datetime.*$`), so the security gate
sees the empty program, which runs successfully (`benignDyn` models
CPython executing the empty module: no output, no exception). -/
theorem c2_counterexample :
    (execute ("import datetime; x.__class__") pEmptyMod none [] true benignDyn []).1
      = { success := true, output := "", error := none } ∧
    stmtListHasDunder treeC2Orig = true :=
  ⟨rfl, by decide⟩

/-- Claim C3 (amended): on the success path both execution paths truncate
the captured stdout at the 51200-character cap and append their explicit
truncation marker, so the returned output length is exactly the cap plus
the marker length, and truncation does not affect `success = true`.  The
restriction to the success path is forced by `c3_counterexample`: the
exception path of `_worker` returns the captured stdout untruncated. -/
theorem c3_output_cap_on_success (out : String) (h : MAX_OUTPUT_BYTES < out.length) :
    (workerResult (.completes out)
      = { success := true,
          output := (⟨out.data.take MAX_OUTPUT_BYTES⟩ : String) ++ truncMarker,
          error := none } ∧
     (workerResult (.completes out)).output.length
       = MAX_OUTPUT_BYTES + truncMarker.length) ∧
    ((inlineResult (.completes out)).output.length
       = MAX_OUTPUT_BYTES + truncMarkerInline.length ∧
     (inlineResult (.completes out)).success = true) := by
  have htake : (out.data.take MAX_OUTPUT_BYTES).length = MAX_OUTPUT_BYTES := by
    rw [List.length_take]
    exact Nat.min_eq_left (Nat.le_of_lt h)
  have hw : capWorkerOutput out
      = (⟨out.data.take MAX_OUTPUT_BYTES⟩ : String) ++ truncMarker := by
    unfold capWorkerOutput
    rw [if_pos h]
  have hi : capInlineOutput out
      = (⟨out.data.take MAX_OUTPUT_BYTES⟩ : String) ++ truncMarkerInline := by
    unfold capInlineOutput
    rw [if_pos h]
  refine ⟨⟨by simp only [workerResult, hw], ?_⟩, ?_, rfl⟩
  · show (capWorkerOutput out).length = MAX_OUTPUT_BYTES + truncMarker.length
    rw [hw, String.length_append]
    congr 1
  · show (capInlineOutput out).length = MAX_OUTPUT_BYTES + truncMarkerInline.length
    rw [hi, String.length_append]
    congr 1

/-- Witness for claim C3 at a 51201-character output (one over the cap). -/
theorem c3_output_cap_on_success_witness :
    MAX_OUTPUT_BYTES < overCapOut.length ∧
    (workerResult (.completes overCapOut)).output.length
      = MAX_OUTPUT_BYTES + truncMarker.length := by
  have h : MAX_OUTPUT_BYTES < overCapOut.length := by
    show MAX_OUTPUT_BYTES < (List.replicate 51201 'a').length
    rw [List.length_replicate]
    decide
  exact ⟨h, ((c3_output_cap_on_success overCapOut h).1).2⟩

/-- Counterexample to claim C3 as stated ("for every execution result, the
output field holds the captured standard output truncated to the cap"):
running `c3code` (which prints 60001 characters — far over the 51200 cap —
and then raises `ZeroDivisionError`; `dynC3` models exactly that CPython
behaviour) produces a result whose `output` is the full 60001-character
captured stdout with no truncation and no marker, because `_worker`
truncates only on its success path. -/
theorem c3_counterexample :
    (execute c3code pC3 none [] true dynC3 []).1.output = bigStdout ∧
    (execute c3code pC3 none [] true dynC3 []).1.success = false ∧
    bigStdout.length = 60001 ∧
    MAX_OUTPUT_BYTES < bigStdout.length ∧
    bigStdout.length ≠ MAX_OUTPUT_BYTES + truncMarker.length := by
  have hlen : bigStdout.length = 60001 := by
    show (List.replicate 60000 'a' ++ ['\n']).length = 60001
    rw [List.length_append, List.length_replicate]
    rfl
  refine ⟨rfl, rfl, hlen, by rw [hlen]; decide, by rw [hlen]; decide⟩

/-- Claim C4 (amended): the retry coordinator performs its one-shot second
execution attempt exactly when the first attempt failed — for any reason:
runtime exception, timeout, crash/no-result, or static policy violation —
and the LLM reply parsed to a non-empty corrected code string.  (The
original claim, that only runtime exceptions are retried, is refuted by
`c4_counterexample`: a timeout failure is retried too.) -/
theorem c4_retry_on_any_failure :
    ∀ (code : String) (r : ExecResult) (rp : Option (Option String))
      (e2 : String → ExecResult),
      (executeWithRetry code r rp e2).2.2
        = (!r.success && (retryCodeTruthy rp).isSome) := by
  intro code r rp e2
  unfold executeWithRetry
  cases hs : r.success
  · cases hrp : retryCodeTruthy rp <;> simp [hs, hrp]
  · simp [hs]

/-- Counterexample to claim C4 as stated: a first attempt that failed with
the timeout error (child killed at the wall-clock limit) is followed by an
automatic retry — `_execute_with_retry` retries on any `success = false`,
it never inspects the failure kind. -/
theorem c4_counterexample :
    (execute ("x = 1") pXEq1 none [] true dynTimeout []).1.success = false ∧
    (execute ("x = 1") pXEq1 none [] true dynTimeout []).1.error = some timeoutMsg ∧
    (executeWithRetry ("x = 1") ((execute ("x = 1") pXEq1 none [] true dynTimeout []).1)
      (some (some ("y = 2")))
      (fun _ => { success := true, output := "", error := none })).2.2 = true :=
  ⟨rfl, rfl, rfl⟩

/-- Claim C5: for every input and every dynamic behaviour, `execute`
returns an `ExecResult` record (the model is total, mirroring the
try/except coverage of every path in the source), and its `error` field is
`none` exactly when `success` is `true` — policy violations, syntax
errors, timeouts, runtime exceptions and channel failures all yield
`success = false` with an error message. -/
theorem c5_error_iff_failure :
    ∀ (code : String) (P : String → Except String PyStmtList) df dfs us dyn heap,
      ((execute code P df dfs us dyn heap).1.error = none)
        ↔ ((execute code P df dfs us dyn heap).1.success = true) := by
  intro code P df dfs us dyn heap
  cases hcs : checkSecurity (preprocessCode code) (P (preprocessCode code)) with
  | some e =>
    rw [execute_sec_some hcs]
    simp
  | none =>
    cases us with
    | false =>
      rw [execute_sec_none_inline hcs]
      unfold executeInline
      cases ho : (dyn.iexec df dfs heap).1 <;> simp [inlineResult]
    | true =>
      rw [execute_sec_none_sub hcs]
      unfold executeInSubprocess
      cases hf : dyn.fate with
      | timedOut => simp
      | crashed => simp
      | ran =>
        cases hw : dyn.wexec (childLocals heap df dfs) <;> simp [workerResult]

/-- Claim C6: under subprocess isolation the caller's heap — hence every
injected table value — is unchanged after `execute` returns, whatever the
executed code does (the worker oracle is universally quantified), and the
child is handed `childLocals`: value copies read out of the caller's heap
through the serialize/reconstruct boundary, not the caller's addresses. -/
theorem c6_subprocess_isolation :
    ∀ (code : String) (P : String → Except String PyStmtList) df dfs dyn heap,
      (execute code P df dfs true dyn heap).2 = heap ∧
      (∀ a : Nat, heapGet (execute code P df dfs true dyn heap).2 a = heapGet heap a) ∧
      childLocals heap df dfs
        = { df := df.map (heapGet heap),
            dfs := if dfs.isEmpty then none
                   else some (dfs.map (fun p => (p.1, heapGet heap p.2))) } := by
  intro code P df dfs dyn heap
  have h2 : (execute code P df dfs true dyn heap).2 = heap := by
    cases hcs : checkSecurity (preprocessCode code) (P (preprocessCode code)) with
    | some e => rw [execute_sec_some hcs]
    | none => rw [execute_sec_none_sub hcs]
  exact ⟨h2, fun a => by rw [h2], rfl⟩

/-- Claim C7: when the security gate passes, a child still alive at the
timeout yields `success = false` with the timeout-specific message, an
empty result channel yields `success = false` with the distinct
crashed/no-result message, the two messages differ, and an empty channel
is never reported as success. -/
theorem c7_timeout_vs_crash_messages :
    ∀ (code : String) (P : String → Except String PyStmtList) df dfs heap
      (w : WorkerLocals → WorkerOutcome)
      (i : Option Nat → List (String × Nat) → Heap → InlineOutcome × Heap),
      checkSecurity (preprocessCode code) (P (preprocessCode code)) = none →
      (execute code P df dfs true { fate := .timedOut, wexec := w, iexec := i } heap).1
        = { success := false, output := "", error := some timeoutMsg } ∧
      (execute code P df dfs true { fate := .crashed, wexec := w, iexec := i } heap).1
        = { success := false, output := "", error := some noResultMsg } ∧
      timeoutMsg ≠ noResultMsg ∧
      (execute code P df dfs true { fate := .crashed, wexec := w, iexec := i } heap).1.success
        = false := by
  intro code P df dfs heap w i hcs
  refine ⟨?_, ?_, by decide, ?_⟩
  · rw [@execute_sec_none_sub code P df dfs
      { fate := ProcFate.timedOut, wexec := w, iexec := i } heap hcs]
    rfl
  · rw [@execute_sec_none_sub code P df dfs
      { fate := ProcFate.crashed, wexec := w, iexec := i } heap hcs]
    rfl
  · rw [@execute_sec_none_sub code P df dfs
      { fate := ProcFate.crashed, wexec := w, iexec := i } heap hcs]
    rfl

/-- Witness for claim C7 at the input `"x = 1"` with benign oracles. -/
theorem c7_timeout_vs_crash_messages_witness :
    (execute ("x = 1") pXEq1 none [] true dynTimeout []).1
      = { success := false, output := "", error := some timeoutMsg } ∧
    (execute ("x = 1") pXEq1 none [] true dynCrashed []).1
      = { success := false, output := "", error := some noResultMsg } ∧
    timeoutMsg ≠ noResultMsg := by
  have h := c7_timeout_vs_crash_messages ("x = 1") pXEq1 none [] []
    (fun _ => WorkerOutcome.completes "")
    (fun _ _ hp => (InlineOutcome.completes "", hp)) (by rfl)
  exact ⟨h.1, h.2.1, h.2.2.1⟩

/-- Counterexample to claim C8 as stated: the Source Rewriter is not
idempotent.  On `".col.collect()lect()"` one application removes the inner
`.collect()` occurrence, and the removal splices the surrounding text into
a fresh `.collect()` occurrence, which a second application then removes:
one pass yields `".collect()"`, two passes yield `""`. -/
theorem c8_counterexample :
    preprocessCode (preprocessCode (".col.collect()lect()"))
      ≠ preprocessCode (".col.collect()lect()") := by decide

/-- Claim C8 (amended): the Source Rewriter is not idempotent in general
(see `c8_counterexample`), but the claim's second half holds: when no
rewrite rule applies — no `POLARS_CORRECTIONS` left-hand side occurs in
the input, the rename regex has no match, and no line matches a
stripped-import pattern — the input is returned unchanged. -/
theorem c8_no_match_unchanged :
    ∀ (code : String), preprocessNoMatch code = true → preprocessCode code = code :=
  preprocess_id_of_no_match

/-- Witness for claim C8 at the input `"x = 1"`, which no rule matches. -/
theorem c8_no_match_unchanged_witness :
    preprocessNoMatch ("x = 1") = true ∧ preprocessCode ("x = 1") = "x = 1" :=
  ⟨by decide, c8_no_match_unchanged ("x = 1") (by decide)⟩

/-- Claim C9: in inline mode (`use_subprocess = False`) the executed code
is handed the caller's own dataframe objects — `execute` passes the `df` /
`dfs` addresses straight into the executed code's namespace and returns
whatever heap the executed code leaves behind — so the value-copy
isolation of the subprocess path does not apply: concretely, running
`df.extend(df)` (an in-place Polars mutation, modelled by `dynMut`
writing through the caller's address) doubles the caller's table. -/
theorem c9_inline_shares_caller_objects :
    (∀ (code : String) (P : String → Except String PyStmtList) df dfs dyn heap,
      checkSecurity (preprocessCode code) (P (preprocessCode code)) = none →
      execute code P df dfs false dyn heap
        = (inlineResult (dyn.iexec df dfs heap).1, (dyn.iexec df dfs heap).2)) ∧
    ((execute ("df.extend(df)") pC9 (some 0) [] false dynMut [tbl9]).2 = [tbl9 ++ tbl9] ∧
      tbl9 ++ tbl9 ≠ tbl9) := by
  constructor
  · intro code P df dfs dyn heap hcs
    rw [execute_sec_none_inline hcs]
    rfl
  · exact ⟨rfl, by decide⟩

/-- Witness for claim C9: the general inline equation instantiated at the
concrete mutating run. -/
theorem c9_inline_shares_caller_objects_witness :
    execute ("df.extend(df)") pC9 (some 0) [] false dynMut [tbl9]
      = (inlineResult (dynMut.iexec (some 0) [] [tbl9]).1,
         (dynMut.iexec (some 0) [] [tbl9]).2) :=
  c9_inline_shares_caller_objects.1 ("df.extend(df)") pC9 (some 0) [] dynMut [tbl9] (by rfl)

/-- Counterexample to claim C10 as stated: `"from collections import os"`
contains the character sequence `"import os"`, yet `execute` returns
`success = true` — the Layer-1 scan runs on the preprocessed text, and the
rewriter strips this line (it matches `^\s*from collections import .*$`),
so the scan sees the empty program, which runs successfully (`benignDyn`
models CPython executing the empty module). -/
theorem c10_counterexample :
    containsSub (("from collections import os").data) (("import os").data) = true ∧
    (execute ("from collections import os") pEmptyMod none [] true benignDyn []).1
      = { success := true, output := "", error := none } :=
  ⟨by decide, rfl⟩

/-- Claim C10 (amended): the Layer-1/Layer-2 textual scan applies to the
preprocessed source text: any input whose rewritten form contains
`"import m"` or `"from m"` for a denied module `m`, or a blocked builtin
name immediately followed by `"("`, is rejected with a security error —
including occurrences inside string literals or comments (fail-closed
over-rejection; see the witness) — but inputs whose offending line the
rewriter strips escape the scan (see `c10_counterexample`). -/
theorem c10_scan_applies_to_preprocessed :
    ∀ (code : String) (P : String → Except String PyStmtList) df dfs us dyn heap,
      ((∃ m, m ∈ blockedModulesList ∧
          (containsSub (preprocessCode code).data (("import " ++ m).data)
            || containsSub (preprocessCode code).data (("from " ++ m).data)) = true) ∨
       (∃ b, b ∈ blockedBuiltinsList ∧
          containsSub (preprocessCode code).data ((b ++ "(").data) = true)) →
      (execute code P df dfs us dyn heap).1.success = false ∧
        ∃ e, (execute code P df dfs us dyn heap).1.error = some e ∧ hasSecHead e = true := by
  intro code P df dfs us dyn heap h
  rcases h with ⟨m, hm, hc⟩ | ⟨b, hb, hc⟩
  · rcases layer1Go_isSome_of_mem (preprocessCode code) blockedModulesList m hm hc
      with ⟨e, he⟩
    have hcs : checkSecurity (preprocessCode code) (P (preprocessCode code)) = some e := by
      simp only [checkSecurity, layer1, he]
    rw [execute_sec_some hcs]
    exact ⟨rfl, e, rfl, layer1Go_secHead _ _ e he⟩
  · cases h1 : layer1 (preprocessCode code) with
    | some e =>
      have hcs : checkSecurity (preprocessCode code) (P (preprocessCode code)) = some e := by
        simp only [checkSecurity, h1]
      rw [execute_sec_some hcs]
      exact ⟨rfl, e, rfl, layer1Go_secHead _ _ e h1⟩
    | none =>
      rcases layer2Go_isSome_of_mem (preprocessCode code) blockedBuiltinsList b hb hc
        with ⟨e, he⟩
      have hcs : checkSecurity (preprocessCode code) (P (preprocessCode code)) = some e := by
        simp only [checkSecurity, h1, layer2, he]
      rw [execute_sec_some hcs]
      exact ⟨rfl, e, rfl, layer2Go_secHead _ _ e he⟩

/-- Witness for claim C10: `"x = 'import os'"` performs no import — the
blocked sequence sits inside a string literal — yet it is rejected. -/
theorem c10_scan_applies_to_preprocessed_witness :
    containsSub (preprocessCode strLitCode).data (("import os").data) = true ∧
    (execute strLitCode pStrLit none [] true benignDyn []).1.success = false := by
  refine ⟨by decide, ?_⟩
  exact (c10_scan_applies_to_preprocessed strLitCode pStrLit none [] true benignDyn []
    (Or.inl ⟨"os", by decide, by decide⟩)).1
